import Mathlib

/-!
# Verification of the task scheduling core (`src/orchestration/task_manager.py`)

Shallow embedding of the `TaskManager` class and proofs about its behavior.

Modelling conventions:
* Python `uuid4()` identifiers are modelled as natural numbers handed out by a
  counter `nextId` held in the manager state; freshness of generated ids is the
  counter invariant `managerInv` (every stored key is below the counter), which
  every reachable state satisfies.
* `datetime.now()` is modelled as reading a logical clock `clock` held in the
  manager state, which ticks on every read.  The claims under study only
  observe whether a timestamp field is set, never its value.
* The insertion-ordered Python `dict` of tasks is an association list with
  duplicate-free keys (`keysNodup`); `dict` lookup, in-place value mutation and
  iteration order are `lookupAssoc`, `setEntry` and plain list order.
* Handlers (`async` callables) are opaque functions `Task → Except String
  (Option String)`: they either produce a result payload (Python `Optional
  [Dict]`, modelled as `Option String`) or fail with an exception message.
* Python exceptions are the inductive `PyError`; `raise` is an `Except.error`
  return value, and — as in Python, where mutations performed before a `raise`
  persist — every operation returns its (possibly mutated) state alongside the
  `Except` outcome.
* `asyncio.gather(*coros)` (without `return_exceptions`) is modelled by
  `runBatch`: every coroutine in the batch runs to completion (the event loop
  keeps stepping the already-scheduled sibling tasks; `gather` does not cancel
  them), after which the first raised exception, if any, is propagated to the
  awaiter.  With list order standing in for scheduling order, the batch's state
  effects are those of running each `execute_task` in order, and the propagated
  error is the first one raised.
-/

namespace TaskSched

/-- The `TaskStatus` enumeration (`task_manager.py`, class `TaskStatus`). -/
inductive TaskStatus where
  | pending
  | running
  | completed
  | failed
deriving DecidableEq, Repr

/-- The `TaskType` enumeration (`task_manager.py`, class `TaskType`). -/
inductive TaskType where
  | planning
  | development
  | testing
  | refactoring
deriving DecidableEq, Repr

/-- Python `str(TaskType.X)` rendering, used in the no-handler error message. -/
def taskTypeStr : TaskType → String
  | .planning => "TaskType.PLANNING"
  | .development => "TaskType.DEVELOPMENT"
  | .testing => "TaskType.TESTING"
  | .refactoring => "TaskType.REFACTORING"

/-- The `Task` dataclass (`task_manager.py`).  Identifiers and timestamps are
naturals (see modelling conventions above); optional fields default to `none`
exactly as the dataclass defaults them to `None`. -/
structure Task where
  id : Nat
  type : TaskType
  description : String
  dependencies : List Nat
  status : TaskStatus
  created_at : Nat
  started_at : Option Nat := none
  completed_at : Option Nat := none
  result : Option String := none
  error : Option String := none
deriving DecidableEq, Repr

/-- The exceptions the scheduling core can raise: `KeyError` from a `dict`
lookup of an unknown id, the two `ValueError`s raised by `execute_task`, and an
arbitrary exception escaping a handler (carrying its message). -/
inductive PyError where
  | keyError (id : Nat)
  | dependencyNotCompleted (id : Nat)
  | noHandlerRegistered (type : TaskType)
  | handlerError (msg : String)
deriving DecidableEq, Repr

/-- Python `str(e)` for the exceptions above, as stored into `task.error`. -/
def errStr : PyError → String
  | .keyError id => toString id
  | .dependencyNotCompleted id => s!"Dependency {id} not completed"
  | .noHandlerRegistered ty => "No handler registered for task type " ++ taskTypeStr ty
  | .handlerError msg => msg

/-- A registered handler: receives the (read-write, already `Running`) task and
either returns a result payload or fails. -/
abbrev Handler : Type := Task → Except String (Option String)

/-- The `TaskManager` state: the two registries plus the id counter and the
logical clock of the model. -/
structure TaskManager where
  tasks : List (Nat × Task)
  handlers : List (TaskType × Handler)
  nextId : Nat
  clock : Nat

/-- A `TaskManager` as built by `TaskManager.__init__`. -/
def TaskManager.empty : TaskManager :=
  { tasks := [], handlers := [], nextId := 0, clock := 0 }

/-- Association-list lookup: Python `dict.get` / `dict[k]` on the task map. -/
def lookupAssoc : List (Nat × Task) → Nat → Option Task
  | [], _ => none
  | (k, v) :: rest, id => if k = id then some v else lookupAssoc rest id

/-- Lookup `self.tasks.get(task_id)`; `none` models a `KeyError` site. -/
def lookupTask (m : TaskManager) (id : Nat) : Option Task :=
  lookupAssoc m.tasks id

/-- Lookup `self.handlers.get(task_type)`. -/
def lookupHandler (m : TaskManager) (ty : TaskType) : Option Handler :=
  match m.handlers.find? (fun p => p.1 == ty) with
  | some p => some p.2
  | none => none

/-- In-place mutation of the task stored under an existing key (Python mutates
the fetched `Task` object, so the key set never changes; on an absent key this
is a no-op, a case the code never reaches because it looked the task up
first). -/
def setEntry : List (Nat × Task) → Nat → Task → List (Nat × Task)
  | [], _, _ => []
  | (k, v) :: rest, id, t => if k = id then (k, t) :: rest else (k, v) :: setEntry rest id t

/-- Store `t` under `id` in the task map. -/
def setTask (m : TaskManager) (id : Nat) (t : Task) : TaskManager :=
  { m with tasks := setEntry m.tasks id t }

/-- The task map has duplicate-free keys, as a Python `dict` always does. -/
abbrev keysNodup (m : TaskManager) : Prop :=
  (m.tasks.map Prod.fst).Nodup

/-- Counter invariant: every stored key was handed out by the counter, hence
is below it, hence the next id is fresh. -/
abbrev managerInv (m : TaskManager) : Prop :=
  ∀ p ∈ m.tasks, p.1 < m.nextId

/-- Helper for `register_handler`: replace-or-append on the handler map,
mirroring `dict` assignment. -/
def upsertHandler (ty : TaskType) (h : Handler) :
    List (TaskType × Handler) → List (TaskType × Handler)
  | [] => [(ty, h)]
  | (k, v) :: rest => if k = ty then (k, h) :: rest else (k, v) :: upsertHandler ty h rest

/-- Method `TaskManager.register_handler`: `self.handlers[task_type] = handler` —
replaces the handler registered for the type, or adds it. -/
def register_handler (m : TaskManager) (ty : TaskType) (h : Handler) : TaskManager :=
  { m with handlers := upsertHandler ty h m.handlers }

/-- Method `TaskManager.create_task`: allocates a fresh id, stores a `Pending` task
with `dependencies or []` and `created_at = now()`, and returns the id.  No
validation of any kind is performed. -/
def create_task (m : TaskManager) (type : TaskType) (description : String)
    (dependencies : Option (List Nat)) : Nat × TaskManager :=
  let task_id := m.nextId
  let task : Task :=
    { id := task_id
      type := type
      description := description
      dependencies := dependencies.getD []
      status := .pending
      created_at := m.clock }
  (task_id,
    { m with
        tasks := m.tasks ++ [(task_id, task)]
        nextId := m.nextId + 1
        clock := m.clock + 1 })

/-- The dependency check at the top of `TaskManager.execute_task`: looks each
dependency up (`KeyError` on an unknown id) and raises
`ValueError(f"Dependency {dep_id} not completed")` at the first dependency
whose status is not `COMPLETED`.  Runs before any mutation. -/
def checkDeps (m : TaskManager) : List Nat → Except PyError Unit
  | [] => .ok ()
  | dep :: rest =>
    match lookupAssoc m.tasks dep with
    | none => .error (.keyError dep)
    | some dep_task =>
      if dep_task.status ≠ TaskStatus.completed then
        .error (.dependencyNotCompleted dep)
      else
        checkDeps m rest

/-- Method `TaskManager.execute_task`.  Faithful to the source: no guard on the
task's current status; dependencies checked before any mutation; then the task
is marked `Running` with `started_at` set; a missing handler raises inside the
`try`, so it is recorded like a handler failure; on success the task is marked
`Completed` with `completed_at` and `result` set; on failure it is marked
`Failed` with `error` set (`completed_at` is NOT set) and the exception is
re-raised. -/
def execute_task (m : TaskManager) (task_id : Nat) : Except PyError Unit × TaskManager :=
  match lookupTask m task_id with
  | none => (.error (.keyError task_id), m)
  | some task =>
    match checkDeps m task.dependencies with
    | .error e => (.error e, m)
    | .ok _ =>
      let task1 := { task with status := .running, started_at := some m.clock }
      let m1 := setTask { m with clock := m.clock + 1 } task_id task1
      match lookupHandler m1 task1.type with
      | none =>
        let e := PyError.noHandlerRegistered task1.type
        let task2 := { task1 with status := .failed, error := some (errStr e) }
        (.error e, setTask m1 task_id task2)
      | some handler =>
        match handler task1 with
        | .ok result =>
          let task2 :=
            { task1 with
                status := .completed
                completed_at := some m1.clock
                result := result }
          (.ok (), setTask { m1 with clock := m1.clock + 1 } task_id task2)
        | .error msg =>
          let e := PyError.handlerError msg
          let task2 := { task1 with status := .failed, error := some (errStr e) }
          (.error e, setTask m1 task_id task2)

/-- The short-circuiting `all(self.tasks[dep].status == TaskStatus.COMPLETED
for dep in task.dependencies)` generator: stops at the first dependency that
is not completed; raises `KeyError` if it looks up an unknown id first. -/
def depsAllCompleted (m : TaskManager) : List Nat → Except PyError Bool
  | [] => .ok true
  | dep :: rest =>
    match lookupAssoc m.tasks dep with
    | none => .error (.keyError dep)
    | some dep_task =>
      if dep_task.status = TaskStatus.completed then
        depsAllCompleted m rest
      else
        .ok false

/-- The list comprehension computing `executable` inside
`TaskManager.execute_all`, scanning `self.tasks.items()` in insertion order. -/
def executableAux (m : TaskManager) : List (Nat × Task) → Except PyError (List Nat)
  | [] => .ok []
  | (task_id, task) :: rest =>
    if task.status = TaskStatus.pending then
      match depsAllCompleted m task.dependencies with
      | .error e => .error e
      | .ok true =>
        match executableAux m rest with
        | .error e => .error e
        | .ok ids => .ok (task_id :: ids)
      | .ok false => executableAux m rest
    else
      executableAux m rest

/-- The ready-set scan of one iteration of `TaskManager.execute_all`. -/
def executable (m : TaskManager) : Except PyError (List Nat) :=
  executableAux m m.tasks

/-- The statement `await asyncio.gather(*(self.execute_task(task_id) for task_id in
executable))`: every scheduled `execute_task` runs to completion in order, and
the first raised exception, if any, is then propagated (see the modelling note
at the top of the file). -/
def runBatch (m : TaskManager) : List Nat → Except PyError Unit × TaskManager
  | [] => (.ok (), m)
  | id :: rest =>
    let (r, m1) := execute_task m id
    let (r2, m2) := runBatch m1 rest
    match r with
    | .error e => (.error e, m2)
    | .ok _ => (r2, m2)

/-- Method `TaskManager.execute_all`, with an explicit fuel parameter: `none` means
the fuel ran out before the loop exited, `some (r, m')` means the loop exited
— by `break` on an empty ready set (`r = .ok ()`) or by an exception
propagating out of the comprehension or the gathered batch (`r = .error e`);
in either case `m'` is the final task-registry state. -/
def execute_all : Nat → TaskManager → Option (Except PyError Unit × TaskManager)
  | 0, _ => none
  | fuel + 1, m =>
    match executable m with
    | .error e => some (.error e, m)
    | .ok [] => some (.ok (), m)
    | .ok (id :: ids) =>
      let (r, m1) := runBatch m (id :: ids)
      match r with
      | .error e => some (.error e, m1)
      | .ok _ => execute_all fuel m1

/-- Method `TaskManager.get_task_status`: `self.tasks[task_id].status`
(`KeyError` on an unknown id). -/
def get_task_status (m : TaskManager) (task_id : Nat) : Except PyError TaskStatus :=
  match lookupTask m task_id with
  | none => .error (.keyError task_id)
  | some t => .ok t.status

/-- Method `TaskManager.get_all_tasks`: `list(self.tasks.values())`. -/
def get_all_tasks (m : TaskManager) : List Task :=
  m.tasks.map Prod.snd

/-- Number of `Pending` entries of the task map; the termination measure of
the `execute_all` loop. -/
def pendingCount (m : TaskManager) : Nat :=
  m.tasks.countP (fun p => p.2.status == TaskStatus.pending)

/-- The predicate counted by `pendingCount`. -/
def pendB (p : Nat × Task) : Bool :=
  p.2.status == TaskStatus.pending

/-- A set of tasks every member of which is `Pending` and depends on another
member — the blocked core that a dependency cycle creates. -/
def cycSet (m : TaskManager) (S : List Nat) : Prop :=
  ∀ id ∈ S, ∃ t, lookupAssoc m.tasks id = some t ∧ t.status = TaskStatus.pending ∧
    ∃ d ∈ t.dependencies, d ∈ S

/-- Executable version of `cycSet`, for concrete witnesses. -/
def cycWitness (m : TaskManager) (S : List Nat) : Bool :=
  S.all (fun id =>
    match lookupAssoc m.tasks id with
    | some t => t.status == TaskStatus.pending &&
        t.dependencies.any (fun d => S.contains d)
    | none => false)

/-- The two-task cycle `A → B → A` of the spec's Scenario D. -/
def c8wM : TaskManager :=
  { tasks := [
      (0, { id := 0, type := .planning, description := "A", dependencies := [1],
            status := .pending, created_at := 0 }),
      (1, { id := 1, type := .planning, description := "B", dependencies := [0],
            status := .pending, created_at := 1 })],
    handlers := [], nextId := 2, clock := 2 }

/-- One pending task whose handler always fails. -/
def c7cexM : TaskManager :=
  { tasks := [(0, { id := 0, type := .planning, description := "t", dependencies := [],
                    status := .pending, created_at := 0 })],
    handlers := [(.planning, fun _ => Except.error "boom")], nextId := 1, clock := 1 }

/-- One pending task of a kind with no registered handler (Scenario C). -/
def c5cexM : TaskManager :=
  { tasks := [(0, { id := 0, type := .planning, description := "t", dependencies := [],
                    status := .pending, created_at := 0 })],
    handlers := [], nextId := 1, clock := 1 }

/-- The task record of `c5cexM`. -/
def c5task : Task :=
  { id := 0, type := .planning, description := "t", dependencies := [],
    status := .pending, created_at := 0 }

/-- Registry for the C6 witness: task `0` depends on task `1`, which is still
`Pending`, so standalone execution of `0` must refuse eagerly. -/
def c6wM : TaskManager :=
  { tasks := [
      (0, { id := 0, type := .planning, description := "t", dependencies := [1],
            status := .pending, created_at := 0 }),
      (1, { id := 1, type := .planning, description := "u", dependencies := [],
            status := .pending, created_at := 1 })],
    handlers := [], nextId := 2, clock := 2 }

/-- Registry for the C6 counterexample, built through the public API: the
stored task `0` references the dependency id `7`, unknown at creation time
(`create_task` stores the dangling reference anyway — see C4). -/
def c6cexM : TaskManager :=
  (create_task TaskManager.empty .planning "t" (some [7])).2

/-- Dependency-completed test as the spec words it: a dependency counts as
satisfied exactly when it is a known task in state `Completed`. -/
def depCompletedB (m : TaskManager) (d : Nat) : Bool :=
  match lookupAssoc m.tasks d with
  | some dt => dt.status == TaskStatus.completed
  | none => false

/-- Modelled from the spec (§4.3 Dependency Resolver), for comparison with the
code's `executable` scan: "returns every task whose state is `Pending` and all
of whose dependencies are in state `Completed`" — a total function of the
registry snapshot. -/
def readySetSpec (m : TaskManager) : List Nat :=
  (m.tasks.filter (fun p => p.2.status == TaskStatus.pending &&
    p.2.dependencies.all (depCompletedB m))).map Prod.fst

/-- Registry whose single task references the unknown dependency id `5`. -/
def c2cexM : TaskManager :=
  { tasks := [(0, { id := 0, type := .planning, description := "t", dependencies := [5],
                    status := .pending, created_at := 0 })],
    handlers := [], nextId := 1, clock := 1 }

/-- Registry for the C2 witness: task `0` is `Pending` with no dependencies,
task `1` is `Pending` and depends on `0`. -/
def c2wM : TaskManager :=
  { tasks := [
      (0, { id := 0, type := .planning, description := "t", dependencies := [],
            status := .pending, created_at := 0 }),
      (1, { id := 1, type := .planning, description := "u", dependencies := [0],
            status := .pending, created_at := 1 })],
    handlers := [], nextId := 2, clock := 2 }

/-- Three tasks: `0` (failing handler) and `1` (succeeding handler) form the
first batch; `2` depends on `1` and would form the second batch. -/
def c1cexM : TaskManager :=
  { tasks := [
      (0, { id := 0, type := .planning, description := "a", dependencies := [],
            status := .pending, created_at := 0 }),
      (1, { id := 1, type := .testing, description := "b", dependencies := [],
            status := .pending, created_at := 1 }),
      (2, { id := 2, type := .testing, description := "c", dependencies := [1],
            status := .pending, created_at := 2 })],
    handlers := [(.planning, fun _ => Except.error "boom"),
                 (.testing, fun _ => Except.ok none)],
    nextId := 3, clock := 3 }

/-- The registry state after the first (and only) batch of `c1cexM`. -/
def c1batchM : TaskManager := (runBatch c1cexM [0, 1]).2

/-- Create a task, run it to `Completed` with a succeeding handler, then
re-register a failing handler for the same kind and call the standalone
`execute_task` on the already-`Completed` task again. -/
def c3s3 : TaskManager :=
  (execute_task
    (register_handler (create_task TaskManager.empty .planning "t" none).2 .planning
      (fun _ => Except.ok (some "r"))) 0).2

/-- State `c3s3` after re-registering a failing handler and re-executing task `0`. -/
def c3s5 : TaskManager :=
  (execute_task (register_handler c3s3 .planning (fun _ => Except.error "boom")) 0).2

/-- Registry for the C3 witness: one task already `Completed`. -/
def c3wM : TaskManager :=
  { tasks := [(0, { id := 0, type := .planning, description := "t", dependencies := [],
                    status := .completed, created_at := 0, started_at := some 1,
                    completed_at := some 2, result := some "r" })],
    handlers := [], nextId := 1, clock := 3 }

/-! ## Lemmas and claim theorems -/

theorem lookupAssoc_setEntry_self (l : List (Nat × Task)) (id : Nat) (t t₀ : Task)
    (h : lookupAssoc l id = some t₀) :
    lookupAssoc (setEntry l id t) id = some t := by
  induction l with
  | nil => simp [lookupAssoc] at h
  | cons p rest ih =>
    obtain ⟨k, v⟩ := p
    by_cases hk : k = id
    · subst hk
      simp [setEntry, lookupAssoc]
    · simp only [lookupAssoc, if_neg hk] at h
      simp [setEntry, lookupAssoc, if_neg hk, ih h]

theorem lookupAssoc_setEntry_ne (l : List (Nat × Task)) (id id' : Nat) (t : Task)
    (h : id' ≠ id) :
    lookupAssoc (setEntry l id t) id' = lookupAssoc l id' := by
  induction l with
  | nil => simp [setEntry]
  | cons p rest ih =>
    obtain ⟨k, v⟩ := p
    by_cases hk : k = id
    · subst hk
      have hki : k ≠ id' := fun hh => h hh.symm
      simp [setEntry, lookupAssoc, if_neg hki]
    · by_cases hk' : k = id'
      · subst hk'
        simp [setEntry, lookupAssoc, if_neg hk]
      · simp [setEntry, lookupAssoc, if_neg hk, if_neg hk', ih]

theorem setEntry_keys (l : List (Nat × Task)) (id : Nat) (t : Task) :
    (setEntry l id t).map Prod.fst = l.map Prod.fst := by
  induction l with
  | nil => simp [setEntry]
  | cons p rest ih =>
    obtain ⟨k, v⟩ := p
    by_cases hk : k = id
    · simp [setEntry, if_pos hk]
    · simp [setEntry, if_neg hk, ih]

theorem lookupAssoc_of_mem_nodup (l : List (Nat × Task)) (id : Nat) (t : Task)
    (hnd : (l.map Prod.fst).Nodup) (hmem : (id, t) ∈ l) :
    lookupAssoc l id = some t := by
  induction l with
  | nil => cases hmem
  | cons p rest ih =>
    obtain ⟨k, v⟩ := p
    simp only [List.map_cons, List.nodup_cons] at hnd
    rcases List.mem_cons.mp hmem with heq | hmem'
    · cases heq
      simp [lookupAssoc]
    · have hk : k ≠ id := by
        intro hk
        subst hk
        exact hnd.1 (List.mem_map.mpr ⟨(k, t), hmem', rfl⟩)
      simp [lookupAssoc, if_neg hk, ih hnd.2 hmem']

theorem lookupAssoc_eq_none_of_forall (l : List (Nat × Task)) (id : Nat)
    (h : ∀ p ∈ l, p.1 ≠ id) :
    lookupAssoc l id = none := by
  induction l with
  | nil => rfl
  | cons p rest ih =>
    obtain ⟨k, v⟩ := p
    have hk : k ≠ id := h (k, v) (List.mem_cons_self _ _)
    simp only [lookupAssoc, if_neg hk]
    exact ih (fun q hq => h q (List.mem_cons_of_mem _ hq))

theorem lookupAssoc_append_self (l : List (Nat × Task)) (id : Nat) (t : Task)
    (h : lookupAssoc l id = none) :
    lookupAssoc (l ++ [(id, t)]) id = some t := by
  induction l with
  | nil => simp [lookupAssoc]
  | cons p rest ih =>
    obtain ⟨k, v⟩ := p
    by_cases hk : k = id
    · simp [lookupAssoc, if_pos hk] at h
    · simp only [lookupAssoc, if_neg hk] at h
      simpa [lookupAssoc, if_neg hk] using ih h

theorem pendingCount_eq (m : TaskManager) : pendingCount m = m.tasks.countP pendB := rfl

theorem countP_setEntry_le (l : List (Nat × Task)) (id : Nat) (t : Task)
    (ht : t.status ≠ TaskStatus.pending) :
    (setEntry l id t).countP pendB ≤ l.countP pendB := by
  induction l with
  | nil => simp [setEntry]
  | cons p rest ih =>
    obtain ⟨k, v⟩ := p
    have hbt : pendB (k, t) = false := by simp [pendB, ht]
    by_cases hk : k = id
    · subst hk
      simp [setEntry, List.countP_cons, hbt]
    · simp only [setEntry, if_neg hk, List.countP_cons]
      omega

theorem countP_setEntry_lt (l : List (Nat × Task)) (id : Nat) (t t₀ : Task)
    (h : lookupAssoc l id = some t₀) (h₀ : t₀.status = TaskStatus.pending)
    (ht : t.status ≠ TaskStatus.pending) :
    (setEntry l id t).countP pendB + 1 = l.countP pendB := by
  induction l with
  | nil => simp [lookupAssoc] at h
  | cons p rest ih =>
    obtain ⟨k, v⟩ := p
    have hbt : pendB (k, t) = false := by simp [pendB, ht]
    by_cases hk : k = id
    · subst hk
      simp [lookupAssoc] at h
      have hbv : pendB (k, v) = true := by simp [pendB, h, h₀]
      simp [setEntry, List.countP_cons, hbv, hbt]
    · simp only [lookupAssoc, if_neg hk] at h
      have := ih h
      simp only [setEntry, if_neg hk, List.countP_cons]
      omega

theorem countP_setEntry_eq (l : List (Nat × Task)) (id : Nat) (t t₀ : Task)
    (h : lookupAssoc l id = some t₀) (h₀ : t₀.status ≠ TaskStatus.pending)
    (ht : t.status ≠ TaskStatus.pending) :
    (setEntry l id t).countP pendB = l.countP pendB := by
  induction l with
  | nil => simp [lookupAssoc] at h
  | cons p rest ih =>
    obtain ⟨k, v⟩ := p
    have hbt : pendB (k, t) = false := by simp [pendB, ht]
    by_cases hk : k = id
    · subst hk
      simp [lookupAssoc] at h
      have hbv : pendB (k, v) = false := by simp [pendB, h, h₀]
      simp [setEntry, List.countP_cons, hbv, hbt]
    · simp only [lookupAssoc, if_neg hk] at h
      have := ih h
      simp only [setEntry, if_neg hk, List.countP_cons]
      omega

theorem countP_pos_of_mem_pending (l : List (Nat × Task)) (id : Nat) (t : Task)
    (hmem : (id, t) ∈ l) (hp : t.status = TaskStatus.pending) :
    0 < l.countP pendB := by
  apply List.countP_pos_iff.mpr
  exact ⟨(id, t), hmem, by simp [pendB, hp]⟩

/-- Case analysis of `execute_task`: either it raised before any mutation
(unknown task or dependency check failure) and the state is unchanged, or the
task was found, marked `Running` with `started_at` set, and then overwritten
with a terminal (never `Pending`) record `t2`; when the call returned
normally, `t2` is the `Completed` record. -/
theorem execute_task_cases (m : TaskManager) (id : Nat) :
    ((execute_task m id).2 = m ∧ ∃ e, (execute_task m id).1 = Except.error e) ∨
    ∃ task t2, lookupAssoc m.tasks id = some task ∧
      t2.status ≠ TaskStatus.pending ∧
      ((execute_task m id).1 = Except.ok () → t2.status = TaskStatus.completed) ∧
      (execute_task m id).2.tasks = setEntry (setEntry m.tasks id
        { task with status := TaskStatus.running, started_at := some m.clock }) id t2 := by
  unfold execute_task
  split
  next hl =>
    exact Or.inl ⟨rfl, _, rfl⟩
  next task hl =>
    split
    next e hc =>
      exact Or.inl ⟨rfl, _, rfl⟩
    next u hc =>
      dsimp only
      split
      next hh =>
        refine Or.inr ⟨task, _, hl, ?_, ?_, rfl⟩
        · simp
        · intro hok
          simp at hok
      next handler hh =>
        split
        next res hr =>
          refine Or.inr ⟨task, _, hl, ?_, ?_, rfl⟩
          · simp
          · intro _
            rfl
        next msg hr =>
          refine Or.inr ⟨task, _, hl, ?_, ?_, rfl⟩
          · simp
          · intro hok
            simp at hok

theorem execute_task_keys (m : TaskManager) (id : Nat) :
    (execute_task m id).2.tasks.map Prod.fst = m.tasks.map Prod.fst := by
  rcases execute_task_cases m id with ⟨h2, -⟩ | ⟨task, t2, -, -, -, h2⟩
  · rw [h2]
  · rw [h2, setEntry_keys, setEntry_keys]

theorem execute_task_pending_le (m : TaskManager) (id : Nat) :
    pendingCount (execute_task m id).2 ≤ pendingCount m := by
  rcases execute_task_cases m id with ⟨h2, -⟩ | ⟨task, t2, -, ht2, -, h2⟩
  · rw [h2]
  · rw [pendingCount_eq, pendingCount_eq, h2]
    exact le_trans (countP_setEntry_le _ _ _ ht2)
      (countP_setEntry_le _ _ _ (by simp))

theorem execute_task_pending_lt (m : TaskManager) (id : Nat) (t : Task)
    (hl : lookupAssoc m.tasks id = some t) (hp : t.status = TaskStatus.pending)
    (hok : (execute_task m id).1 = Except.ok ()) :
    pendingCount (execute_task m id).2 < pendingCount m := by
  rcases execute_task_cases m id with ⟨-, e, h1⟩ | ⟨task, t2, hl', ht2, -, h2⟩
  · rw [hok] at h1
    cases h1
  · have htt : task = t := by
      rw [hl] at hl'
      exact (Option.some.injEq _ _).mp hl'.symm
    subst htt
    rw [pendingCount_eq, pendingCount_eq, h2]
    have h1 : (setEntry m.tasks id
        { task with status := TaskStatus.running, started_at := some m.clock }).countP pendB + 1
        = m.tasks.countP pendB :=
      countP_setEntry_lt _ _ _ _ hl hp (by simp)
    have h0 : (setEntry (setEntry m.tasks id
        { task with status := TaskStatus.running, started_at := some m.clock }) id t2).countP pendB
        = (setEntry m.tasks id
        { task with status := TaskStatus.running, started_at := some m.clock }).countP pendB :=
      countP_setEntry_eq _ _ _ _
        (lookupAssoc_setEntry_self _ _ _ _ hl) (by simp) ht2
    omega

theorem execute_task_lookup_ne (m : TaskManager) (id id' : Nat) (h : id' ≠ id) :
    lookupAssoc (execute_task m id).2.tasks id' = lookupAssoc m.tasks id' := by
  rcases execute_task_cases m id with ⟨h2, -⟩ | ⟨task, t2, -, -, -, h2⟩
  · rw [h2]
  · rw [h2, lookupAssoc_setEntry_ne _ _ _ _ h, lookupAssoc_setEntry_ne _ _ _ _ h]

theorem execute_task_pending_origin (m : TaskManager) (id id' : Nat) (t' : Task)
    (h : lookupAssoc (execute_task m id).2.tasks id' = some t')
    (hp : t'.status = TaskStatus.pending) :
    lookupAssoc m.tasks id' = some t' := by
  rcases execute_task_cases m id with ⟨h2, -⟩ | ⟨task, t2, hl, ht2, -, h2⟩
  · rwa [h2] at h
  · by_cases hid : id' = id
    · subst hid
      rw [h2] at h
      have hin : lookupAssoc (setEntry m.tasks id'
          { task with status := TaskStatus.running, started_at := some m.clock }) id'
          = some { task with status := TaskStatus.running, started_at := some m.clock } :=
        lookupAssoc_setEntry_self _ _ _ _ hl
      rw [lookupAssoc_setEntry_self _ _ _ _ hin] at h
      cases h
      exact absurd hp ht2
    · rw [h2, lookupAssoc_setEntry_ne _ _ _ _ hid, lookupAssoc_setEntry_ne _ _ _ _ hid] at h
      exact h

theorem runBatch_snd (m : TaskManager) (id : Nat) (ids : List Nat) :
    (runBatch m (id :: ids)).2 = (runBatch (execute_task m id).2 ids).2 := by
  rcases hE : execute_task m id with ⟨r, m1⟩
  rcases hB : runBatch m1 ids with ⟨r2, m2⟩
  simp only [runBatch, hE, hB]
  cases r <;> rfl

theorem runBatch_fst_ok (m : TaskManager) (id : Nat) (ids : List Nat)
    (h : (runBatch m (id :: ids)).1 = Except.ok ()) :
    (execute_task m id).1 = Except.ok () ∧
      (runBatch (execute_task m id).2 ids).1 = Except.ok () := by
  rcases hE : execute_task m id with ⟨r, m1⟩
  rcases hB : runBatch m1 ids with ⟨r2, m2⟩
  simp only [runBatch, hE, hB] at h ⊢
  cases r with
  | error e => cases h
  | ok u => cases r2 with
    | error e => cases h
    | ok u2 => exact ⟨rfl, rfl⟩

theorem runBatch_keys (ids : List Nat) (m : TaskManager) :
    (runBatch m ids).2.tasks.map Prod.fst = m.tasks.map Prod.fst := by
  induction ids generalizing m with
  | nil => rfl
  | cons id rest ih =>
    rw [runBatch_snd]
    rw [ih, execute_task_keys]

theorem runBatch_pending_le (ids : List Nat) (m : TaskManager) :
    pendingCount (runBatch m ids).2 ≤ pendingCount m := by
  induction ids generalizing m with
  | nil => exact le_refl _
  | cons id rest ih =>
    rw [runBatch_snd]
    exact le_trans (ih _) (execute_task_pending_le m id)

theorem runBatch_pending_lt (m : TaskManager) (id : Nat) (ids : List Nat) (t : Task)
    (hl : lookupAssoc m.tasks id = some t) (hp : t.status = TaskStatus.pending)
    (hok : (runBatch m (id :: ids)).1 = Except.ok ()) :
    pendingCount (runBatch m (id :: ids)).2 < pendingCount m := by
  obtain ⟨h1, -⟩ := runBatch_fst_ok m id ids hok
  rw [runBatch_snd]
  exact lt_of_le_of_lt (runBatch_pending_le ids _)
    (execute_task_pending_lt m id t hl hp h1)

theorem runBatch_lookup_not_mem (ids : List Nat) (m : TaskManager) (id' : Nat)
    (h : id' ∉ ids) :
    lookupAssoc (runBatch m ids).2.tasks id' = lookupAssoc m.tasks id' := by
  induction ids generalizing m with
  | nil => rfl
  | cons id rest ih =>
    rw [runBatch_snd]
    have h1 : id' ≠ id := fun hh => h (hh ▸ List.mem_cons_self _ _)
    have h2 : id' ∉ rest := fun hh => h (List.mem_cons_of_mem _ hh)
    rw [ih _ h2, execute_task_lookup_ne _ _ _ h1]

theorem runBatch_pending_origin (ids : List Nat) (m : TaskManager) (id' : Nat) (t' : Task)
    (h : lookupAssoc (runBatch m ids).2.tasks id' = some t')
    (hp : t'.status = TaskStatus.pending) :
    lookupAssoc m.tasks id' = some t' := by
  induction ids generalizing m with
  | nil => exact h
  | cons id rest ih =>
    rw [runBatch_snd] at h
    exact execute_task_pending_origin m id id' t' (ih _ h) hp

theorem depsAllCompleted_true (m : TaskManager) (deps : List Nat)
    (h : depsAllCompleted m deps = Except.ok true) :
    ∀ d ∈ deps, ∃ dt, lookupAssoc m.tasks d = some dt ∧
      dt.status = TaskStatus.completed := by
  induction deps with
  | nil => intro d hd; cases hd
  | cons dep rest ih =>
    intro d hd
    simp only [depsAllCompleted] at h
    rcases hl : lookupAssoc m.tasks dep with - | dt
    · rw [hl] at h
      cases h
    · simp only [hl] at h
      by_cases hs : dt.status = TaskStatus.completed
      · rw [if_pos hs] at h
        rcases List.mem_cons.mp hd with rfl | hd'
        · exact ⟨dt, hl, hs⟩
        · exact ih h d hd'
      · rw [if_neg hs] at h
        cases h

theorem executableAux_mem (m : TaskManager) (l : List (Nat × Task)) (ids : List Nat)
    (h : executableAux m l = Except.ok ids) (id : Nat) (hm : id ∈ ids) :
    ∃ t, (id, t) ∈ l ∧ t.status = TaskStatus.pending ∧
      depsAllCompleted m t.dependencies = Except.ok true := by
  induction l generalizing ids with
  | nil =>
    simp only [executableAux] at h
    cases h
    cases hm
  | cons p rest ih =>
    obtain ⟨k, v⟩ := p
    simp only [executableAux] at h
    by_cases hp : v.status = TaskStatus.pending
    · rw [if_pos hp] at h
      rcases hd : depsAllCompleted m v.dependencies with e | b
      · rw [hd] at h
        cases h
      · rw [hd] at h
        cases b with
        | true =>
          rcases hx : executableAux m rest with e | ids'
          · rw [hx] at h
            cases h
          · rw [hx] at h
            cases h
            rcases List.mem_cons.mp hm with rfl | hm'
            · exact ⟨v, List.mem_cons_self _ _, hp, hd⟩
            · obtain ⟨t, htm, hts, htd⟩ := ih ids' hx hm'
              exact ⟨t, List.mem_cons_of_mem _ htm, hts, htd⟩
        | false =>
          obtain ⟨t, htm, hts, htd⟩ := ih ids h hm
          exact ⟨t, List.mem_cons_of_mem _ htm, hts, htd⟩
    · rw [if_neg hp] at h
      obtain ⟨t, htm, hts, htd⟩ := ih ids h hm
      exact ⟨t, List.mem_cons_of_mem _ htm, hts, htd⟩

/-- A member of the computed ready set is, in a duplicate-free registry, a
`Pending` task all of whose dependencies are `Completed`. -/
theorem executable_mem (m : TaskManager) (ids : List Nat)
    (h : executable m = Except.ok ids) (hnd : keysNodup m) (id : Nat) (hm : id ∈ ids) :
    ∃ t, lookupAssoc m.tasks id = some t ∧ t.status = TaskStatus.pending ∧
      depsAllCompleted m t.dependencies = Except.ok true := by
  obtain ⟨t, htm, hts, htd⟩ := executableAux_mem m m.tasks ids h id hm
  exact ⟨t, lookupAssoc_of_mem_nodup _ _ _ hnd htm, hts, htd⟩

theorem mem_of_lookupAssoc (l : List (Nat × Task)) (id : Nat) (t : Task)
    (h : lookupAssoc l id = some t) : (id, t) ∈ l := by
  induction l with
  | nil => cases h
  | cons p rest ih =>
    obtain ⟨k, v⟩ := p
    by_cases hk : k = id
    · subst hk
      simp [lookupAssoc] at h
      subst h
      exact List.mem_cons_self _ _
    · rw [lookupAssoc, if_neg hk] at h
      exact List.mem_cons_of_mem _ (ih h)

theorem execute_all_succ (fuel : Nat) (m : TaskManager) :
    execute_all (fuel + 1) m =
      match executable m with
      | .error e => some (.error e, m)
      | .ok [] => some (.ok (), m)
      | .ok (id :: ids) =>
        match (runBatch m (id :: ids)).1 with
        | .error e => some (.error e, (runBatch m (id :: ids)).2)
        | .ok _ => execute_all fuel (runBatch m (id :: ids)).2 := by
  rcases hx : executable m with e | ids
  · simp [execute_all, hx]
  · cases ids with
    | nil => simp [execute_all, hx]
    | cons id rest =>
      rcases hB : runBatch m (id :: rest) with ⟨r, m1⟩
      simp only [execute_all, hx, hB]

theorem runBatch_keysNodup (ids : List Nat) (m : TaskManager) (h : keysNodup m) :
    keysNodup (runBatch m ids).2 := by
  unfold keysNodup at h ⊢
  rw [runBatch_keys]
  exact h

/-- Fuel sufficiency: with one unit of fuel more than the number of `Pending`
tasks, the run loop always reaches its exit — `execute_all` terminates. -/
theorem execute_all_terminates (n : Nat) :
    ∀ m : TaskManager, keysNodup m → pendingCount m ≤ n →
      execute_all (n + 1) m ≠ none := by
  induction n with
  | zero =>
    intro m hnd hc
    rw [execute_all_succ]
    rcases hx : executable m with e | ids
    · simp
    · cases ids with
      | nil => simp
      | cons id rest =>
        obtain ⟨t, hl, hp, -⟩ := executable_mem m _ hx hnd id (List.mem_cons_self _ _)
        have hpos := countP_pos_of_mem_pending _ id t (mem_of_lookupAssoc _ _ _ hl) hp
        rw [pendingCount_eq] at hc
        omega
  | succ n ih =>
    intro m hnd hc
    rw [execute_all_succ]
    rcases hx : executable m with e | ids
    · simp
    · cases ids with
      | nil => simp
      | cons id rest =>
        rcases hB1 : (runBatch m (id :: rest)).1 with e | u
        · simp [hB1]
        · obtain ⟨⟩ := u
          obtain ⟨t, hl, hp, -⟩ := executable_mem m _ hx hnd id (List.mem_cons_self _ _)
          have hlt := runBatch_pending_lt m id rest t hl hp hB1
          simp only [hB1]
          exact ih _ (runBatch_keysNodup _ _ hnd) (by omega)

/-- When `execute_all` returns normally, the final registry is quiescent: its
ready set is empty. -/
theorem execute_all_ok_quiescent (fuel : Nat) :
    ∀ m m' : TaskManager, execute_all fuel m = some (.ok (), m') →
      executable m' = Except.ok [] := by
  induction fuel with
  | zero => intro m m' h; cases h
  | succ n ih =>
    intro m m' h
    rw [execute_all_succ] at h
    split at h
    · exact absurd h (by simp)
    next heq =>
      simp only [Option.some.injEq, Prod.mk.injEq, true_and] at h
      rw [← h]
      exact heq
    · split at h
      · exact absurd h (by simp)
      · exact ih _ _ h

theorem cycSet_of_witness (m : TaskManager) (S : List Nat)
    (h : cycWitness m S = true) : cycSet m S := by
  intro id hid
  have h1 := List.all_eq_true.mp h id hid
  rcases hl : lookupAssoc m.tasks id with - | t
  · rw [hl] at h1
    cases h1
  · rw [hl] at h1
    simp only [Bool.and_eq_true, beq_iff_eq, List.any_eq_true] at h1
    obtain ⟨hp, d, hd, hdS⟩ := h1
    exact ⟨t, rfl, hp, d, hd, by simpa using hdS⟩

theorem cycSet_not_executable (m : TaskManager) (S : List Nat) (ids : List Nat)
    (hx : executable m = Except.ok ids) (hnd : keysNodup m) (hc : cycSet m S) :
    ∀ id ∈ S, id ∉ ids := by
  intro id hid hmem
  obtain ⟨t, hl, hp, hd⟩ := executable_mem m ids hx hnd id hmem
  obtain ⟨t', hl', hp', d, hdmem, hdS⟩ := hc id hid
  rw [hl] at hl'
  injection hl' with he
  subst he
  obtain ⟨dt, hdl, hdc⟩ := depsAllCompleted_true m _ hd d hdmem
  obtain ⟨dt', hdl', hdp', -⟩ := hc d hdS
  rw [hdl] at hdl'
  injection hdl' with he'
  subst he'
  rw [hdc] at hdp'
  cases hdp'

theorem cycSet_batch (m : TaskManager) (S : List Nat) (id : Nat) (ids : List Nat)
    (hx : executable m = Except.ok (id :: ids)) (hnd : keysNodup m) (hc : cycSet m S) :
    cycSet (runBatch m (id :: ids)).2 S := by
  intro i hi
  obtain ⟨t, hl, hp, hdep⟩ := hc i hi
  have hnot := cycSet_not_executable m S _ hx hnd hc i hi
  rw [runBatch_lookup_not_mem _ _ _ hnot]
  exact ⟨t, hl, hp, hdep⟩

/-- The blocked core of a cycle survives the whole run: whatever the loop does
(including an exceptional exit), every task in it is still `Pending` in the
final registry. -/
theorem execute_all_cycSet (fuel : Nat) :
    ∀ (m : TaskManager) (res : Except PyError Unit × TaskManager) (S : List Nat),
      keysNodup m → cycSet m S → execute_all fuel m = some res →
      cycSet res.2 S := by
  induction fuel with
  | zero => intro m res S _ _ h; cases h
  | succ n ih =>
    intro m res S hnd hc h
    rw [execute_all_succ] at h
    split at h
    · injection h with h1
      rw [← h1]
      exact hc
    · injection h with h1
      rw [← h1]
      exact hc
    next id ids heq =>
      split at h
      · injection h with h1
        rw [← h1]
        exact cycSet_batch m S id ids heq hnd hc
      · exact ih _ _ _ (runBatch_keysNodup _ _ hnd)
          (cycSet_batch m S id ids heq hnd hc) h

/-- Tasks already in a terminal state are never touched by the run loop. -/
theorem execute_all_terminal_stable (fuel : Nat) :
    ∀ (m : TaskManager) (res : Except PyError Unit × TaskManager) (id : Nat) (t : Task),
      keysNodup m → execute_all fuel m = some res →
      lookupAssoc m.tasks id = some t →
      (t.status = TaskStatus.completed ∨ t.status = TaskStatus.failed) →
      lookupAssoc res.2.tasks id = some t := by
  induction fuel with
  | zero => intro m res id t _ h; cases h
  | succ n ih =>
    intro m res id t hnd h hl hterm
    rw [execute_all_succ] at h
    split at h
    · injection h with h1
      rw [← h1]
      exact hl
    · injection h with h1
      rw [← h1]
      exact hl
    next i ids heq =>
      have hnot : id ∉ i :: ids := by
        intro hmem
        obtain ⟨t', hl', hp', -⟩ := executable_mem m _ heq hnd id hmem
        rw [hl] at hl'
        injection hl' with he
        subst he
        rcases hterm with h' | h' <;> rw [h'] at hp' <;> cases hp'
      have hl1 : lookupAssoc (runBatch m (i :: ids)).2.tasks id = some t := by
        rw [runBatch_lookup_not_mem _ _ _ hnot]
        exact hl
      split at h
      · injection h with h1
        rw [← h1]
        exact hl1
      · exact ih _ _ _ _ (runBatch_keysNodup _ _ hnd) h hl1 hterm

/-- A task that is `Pending` in the final registry was `Pending`, with the
same record, in the initial one: nothing ever writes `Pending` back. -/
theorem execute_all_pending_origin (fuel : Nat) :
    ∀ (m : TaskManager) (res : Except PyError Unit × TaskManager) (id : Nat) (t' : Task),
      execute_all fuel m = some res →
      lookupAssoc res.2.tasks id = some t' → t'.status = TaskStatus.pending →
      lookupAssoc m.tasks id = some t' := by
  induction fuel with
  | zero => intro m res id t' h; cases h
  | succ n ih =>
    intro m res id t' h hres hp
    rw [execute_all_succ] at h
    split at h
    · injection h with h1
      rw [← h1] at hres
      exact hres
    · injection h with h1
      rw [← h1] at hres
      exact hres
    next i ids heq =>
      split at h
      · injection h with h1
        rw [← h1] at hres
        exact runBatch_pending_origin _ _ _ _ hres hp
      · exact runBatch_pending_origin _ _ _ _ (ih _ _ _ _ h hres hp) hp

/-- Claim C8 (confirmed): for every registry whose dependency graph contains a
cycle — formalised as a nonempty set `S` of `Pending` tasks each depending on
another member of `S`, which is exactly what a cycle of freshly created tasks
yields — `execute_all` terminates within `pendingCount m + 1` iterations of
fuel (rather than looping forever), and every task of `S` is still `Pending`
in the final registry; no error of any kind is reported for the cycle (the
error type `PyError` has no cycle constructor), a silent stall. -/
theorem cyclic_graph_stalls_pending (m : TaskManager) (S : List Nat)
    (hnd : keysNodup m) (_hS : S ≠ []) (hcyc : cycWitness m S = true) :
    ∃ res, execute_all (pendingCount m + 1) m = some res ∧
      ∀ id ∈ S, ∃ t, lookupAssoc res.2.tasks id = some t ∧
        t.status = TaskStatus.pending := by
  have hterm := execute_all_terminates (pendingCount m) m hnd (le_refl _)
  rcases hres : execute_all (pendingCount m + 1) m with - | res
  · exact absurd hres hterm
  · refine ⟨res, rfl, ?_⟩
    have hc := execute_all_cycSet (pendingCount m + 1) m res S hnd
      (cycSet_of_witness m S hcyc) hres
    intro id hid
    obtain ⟨t, hl, hp, -⟩ := hc id hid
    exact ⟨t, hl, hp⟩

/-- Witness for C8 at the concrete cycle `A → B → A`. -/
theorem cyclic_graph_stalls_pending_witness :
    ∃ res, execute_all (pendingCount c8wM + 1) c8wM = some res ∧
      ∀ id ∈ ([0, 1] : List Nat), ∃ t, lookupAssoc res.2.tasks id = some t ∧
        t.status = TaskStatus.pending :=
  cyclic_graph_stalls_pending c8wM [0, 1] (by decide) (by decide) (by decide)

/-- Claim C9 (confirmed): `runAll` is idempotent once quiescent.  If a run of
`execute_all` has terminated normally — quiescence: the ready set came up
empty, which is the only way the loop completes rather than aborting on an
exception — then running `execute_all` again on the resulting registry `m'`
returns immediately with `m'` itself: zero state transitions, every task
record unchanged. -/
theorem runAll_idempotent_once_quiescent (fuel fuel' : Nat) (m m' : TaskManager)
    (h : execute_all fuel m = some (.ok (), m')) :
    execute_all (fuel' + 1) m' = some (.ok (), m') := by
  have hq := execute_all_ok_quiescent fuel m m' h
  rw [execute_all_succ, hq]

/-- Witness for C9 on the empty manager, which is trivially quiescent. -/
theorem runAll_idempotent_once_quiescent_witness :
    execute_all 1 TaskManager.empty = some (.ok (), TaskManager.empty) :=
  runAll_idempotent_once_quiescent 1 0 TaskManager.empty TaskManager.empty rfl

/-- Claim C10 (confirmed): `create_task` performs no validation and cannot
fail (it is a total function); called with the dependency argument omitted
(`None`, modelled `none`) it stores a task with an empty dependency list,
state `Pending`, `created_at` set to the current clock, `started_at`,
`completed_at`, `result` and `error` all unset, under a fresh id that is not a
previously created task id; the freshness invariant is preserved. -/
theorem create_task_none_defaults (m : TaskManager) (ty : TaskType) (d : String)
    (hinv : managerInv m) :
    lookupAssoc m.tasks (create_task m ty d none).1 = none ∧
    lookupAssoc (create_task m ty d none).2.tasks (create_task m ty d none).1 =
      some { id := m.nextId, type := ty, description := d, dependencies := [],
             status := TaskStatus.pending, created_at := m.clock,
             started_at := none, completed_at := none, result := none, error := none } ∧
    managerInv (create_task m ty d none).2 := by
  have hfresh : lookupAssoc m.tasks m.nextId = none :=
    lookupAssoc_eq_none_of_forall _ _ (fun p hp => Nat.ne_of_lt (hinv p hp))
  refine ⟨hfresh, lookupAssoc_append_self _ _ _ hfresh, ?_⟩
  intro p hp
  rcases List.mem_append.mp hp with h | h
  · exact Nat.lt_succ_of_lt (hinv p h)
  · simp only [List.mem_singleton] at h
    subst h
    exact Nat.lt_succ_self _

/-- Witness for C10 on the empty manager. -/
theorem create_task_none_defaults_witness :
    lookupAssoc (create_task TaskManager.empty .planning "t" none).2.tasks
        (create_task TaskManager.empty .planning "t" none).1 =
      some { id := 0, type := TaskType.planning, description := "t", dependencies := [],
             status := TaskStatus.pending, created_at := 0,
             started_at := none, completed_at := none, result := none, error := none } :=
  (create_task_none_defaults TaskManager.empty .planning "t" (by decide)).2.1

/-- Counterexample for C4: `create_task` called with the unknown dependency id
`99` does not fail with `InvalidDependency` — it has no failure channel at
all — and it does store a task referencing the unknown id. -/
theorem create_task_accepts_unknown_dependency :
    (create_task TaskManager.empty .planning "t" (some [99])).2.tasks =
      [(0, { id := 0, type := TaskType.planning, description := "t",
             dependencies := [99], status := TaskStatus.pending, created_at := 0 })] ∧
    lookupAssoc (create_task TaskManager.empty .planning "t" (some [99])).2.tasks 99 =
      none := ⟨rfl, rfl⟩

/-- Claim C4 (corrected): `create_task` performs no dependency validation: for
every manager state and every dependency list — including lists referencing
ids unknown at creation time — it succeeds and stores the task, `Pending`,
with the dependency list exactly as supplied. -/
theorem create_task_no_validation (m : TaskManager) (ty : TaskType) (d : String)
    (deps : List Nat) (hinv : managerInv m) :
    lookupAssoc (create_task m ty d (some deps)).2.tasks
        (create_task m ty d (some deps)).1 =
      some { id := m.nextId, type := ty, description := d, dependencies := deps,
             status := TaskStatus.pending, created_at := m.clock } := by
  have hfresh : lookupAssoc m.tasks m.nextId = none :=
    lookupAssoc_eq_none_of_forall _ _ (fun p hp => Nat.ne_of_lt (hinv p hp))
  exact lookupAssoc_append_self _ _ _ hfresh

/-- Witness for C4 (amended): a task whose dependency list references the
unknown id `99` is stored anyway. -/
theorem create_task_no_validation_witness :
    lookupAssoc (create_task TaskManager.empty .planning "x" (some [99])).2.tasks
        (create_task TaskManager.empty .planning "x" (some [99])).1 =
      some { id := 0, type := TaskType.planning, description := "x",
             dependencies := [99], status := TaskStatus.pending, created_at := 0 } :=
  create_task_no_validation TaskManager.empty .planning "x" [99] (by decide)

/-- Counterexample for C7: on entering the terminal state `Failed` the
completion time is NOT set — the task ends `Failed` with
`completed_at = none` (`execute_task` only sets `completed_at` in its success
branch). -/
theorem failed_task_completed_at_unset :
    lookupAssoc (execute_task c7cexM 0).2.tasks 0 =
      some { id := 0, type := TaskType.planning, description := "t", dependencies := [],
             status := TaskStatus.failed, created_at := 0, started_at := some 1,
             completed_at := none, result := none, error := some "boom" } := rfl

/-- Claim C7 (corrected): creation time is set at creation (and start and
completion time unset there); start time is set exactly on entering `Running`;
completion time is set on entering `Completed` — but on entering `Failed` it
is left unchanged (unset for a first run). -/
theorem timestamps_policy (m : TaskManager) (ty : TaskType) (d : String)
    (deps : Option (List Nat)) (task_id : Nat) (t : Task)
    (ht : lookupAssoc m.tasks task_id = some t)
    (hcd : checkDeps m t.dependencies = Except.ok ()) :
    ((create_task m ty d deps).2.tasks.getLast?).map
        (fun p => (p.2.created_at, p.2.started_at, p.2.completed_at)) =
      some (m.clock, none, none) ∧
    ∃ t', lookupAssoc (execute_task m task_id).2.tasks task_id = some t' ∧
      t'.started_at = some m.clock ∧
      (t'.status = TaskStatus.completed → t'.completed_at = some (m.clock + 1)) ∧
      (t'.status = TaskStatus.failed → t'.completed_at = t.completed_at) := by
  constructor
  · show ((m.tasks ++ [_]).getLast?).map _ = _
    rw [List.getLast?_concat]
    rfl
  · simp only [execute_task, lookupTask, ht, hcd]
    split
    next hh =>
      refine ⟨_, lookupAssoc_setEntry_self _ _ _ _
        (lookupAssoc_setEntry_self _ _ _ _ ht), rfl, ?_, ?_⟩
      · intro habs
        cases habs
      · intro _
        rfl
    next handler hh =>
      split
      next res hr =>
        refine ⟨_, lookupAssoc_setEntry_self _ _ _ _
          (lookupAssoc_setEntry_self _ _ _ _ ht), rfl, ?_, ?_⟩
        · intro _
          rfl
        · intro habs
          cases habs
      next msg hr =>
        refine ⟨_, lookupAssoc_setEntry_self _ _ _ _
          (lookupAssoc_setEntry_self _ _ _ _ ht), rfl, ?_, ?_⟩
        · intro habs
          cases habs
        · intro _
          rfl

/-- Witness for C7 (amended) on the failing-handler registry. -/
theorem timestamps_policy_witness :
    ((create_task c7cexM .testing "u" none).2.tasks.getLast?).map
        (fun p => (p.2.created_at, p.2.started_at, p.2.completed_at)) =
      some (1, none, none) ∧
    ∃ t', lookupAssoc (execute_task c7cexM 0).2.tasks 0 = some t' ∧
      t'.started_at = some 1 ∧
      (t'.status = TaskStatus.completed → t'.completed_at = some 2) ∧
      (t'.status = TaskStatus.failed → t'.completed_at = none) :=
  timestamps_policy c7cexM .testing "u" none 0
    { id := 0, type := .planning, description := "t", dependencies := [],
      status := .pending, created_at := 0 } rfl rfl

/-- Counterexample for C5: dispatching a task with no registered handler makes
the batch loop itself return the `NoHandlerRegistered` error — the exception
IS propagated out of `execute_all` to its caller (the `except` block re-raises
after recording the failure, and `asyncio.gather` propagates). -/
theorem noHandler_error_escapes_loop :
    (execute_all 2 c5cexM).map (fun r => r.1) =
      some (Except.error (PyError.noHandlerRegistered TaskType.planning)) := rfl

/-- Claim C5 (corrected): when the batch loop dispatches a task whose kind has
no registered handler, the executor does record the no-handler failure as the
task's terminal `Failed` error, and the run terminates (with any positive
fuel) rather than hanging — but the exception also propagates out of the
batch loop to the caller of `execute_all`. -/
theorem noHandler_recorded_and_raised (fuel : Nat) (m : TaskManager)
    (task_id : Nat) (t : Task) (hm : m.tasks = [(task_id, t)])
    (hp : t.status = TaskStatus.pending) (hd : t.dependencies = [])
    (hh : lookupHandler m t.type = none) :
    execute_all (fuel + 1) m =
      some (Except.error (PyError.noHandlerRegistered t.type),
            (execute_task m task_id).2) ∧
    lookupAssoc (execute_task m task_id).2.tasks task_id =
      some { t with
        status := TaskStatus.failed
        started_at := some m.clock
        error := some (errStr (PyError.noHandlerRegistered t.type)) } := by
  have hlt : lookupTask m task_id = some t := by
    simp [lookupTask, hm, lookupAssoc]
  have hcd : checkDeps m t.dependencies = Except.ok () := by
    rw [hd]
    rfl
  have hh1 : lookupHandler (setTask { m with clock := m.clock + 1 } task_id
      { t with status := TaskStatus.running, started_at := some m.clock }) t.type
      = none := hh
  have hE : execute_task m task_id =
      (Except.error (PyError.noHandlerRegistered t.type),
        setTask (setTask { m with clock := m.clock + 1 } task_id
          { t with status := TaskStatus.running, started_at := some m.clock }) task_id
          { t with
            status := TaskStatus.failed
            started_at := some m.clock
            error := some (errStr (PyError.noHandlerRegistered t.type)) }) := by
    simp only [execute_task, hlt, hcd, hh1]
  have hx : executable m = Except.ok [task_id] := by
    simp [executable, executableAux, hm, hp, hd, depsAllCompleted]
  have hrb : runBatch m [task_id] =
      (Except.error (PyError.noHandlerRegistered t.type), (execute_task m task_id).2) := by
    simp only [runBatch, hE]
  constructor
  · rw [execute_all_succ]
    simp only [hx, hrb]
  · rw [hE]
    exact lookupAssoc_setEntry_self _ _ _ _
      (lookupAssoc_setEntry_self _ _ _ _ (by simpa [lookupTask] using hlt))

/-- Witness for C5 (amended) at the concrete Scenario C registry. -/
theorem noHandler_recorded_and_raised_witness :
    execute_all 1 c5cexM =
      some (Except.error (PyError.noHandlerRegistered c5task.type),
            (execute_task c5cexM 0).2) ∧
    lookupAssoc (execute_task c5cexM 0).2.tasks 0 =
      some { c5task with
        status := TaskStatus.failed
        started_at := some c5cexM.clock
        error := some (errStr (PyError.noHandlerRegistered c5task.type)) } :=
  noHandler_recorded_and_raised 0 c5cexM 0 c5task rfl rfl rfl rfl

theorem checkDeps_ok_of_completed (m : TaskManager) (deps : List Nat)
    (h : ∀ d ∈ deps, ∃ dt, lookupAssoc m.tasks d = some dt ∧
      dt.status = TaskStatus.completed) :
    checkDeps m deps = Except.ok () := by
  induction deps with
  | nil => rfl
  | cons dep rest ih =>
    obtain ⟨dt, hdl, hdc⟩ := h dep (List.mem_cons_self _ _)
    simp only [checkDeps, hdl, hdc]
    simp only [ne_eq, not_true_eq_false, if_false]
    exact ih (fun d hd => h d (List.mem_cons_of_mem _ hd))

theorem checkDeps_error_of_offender (m : TaskManager) (deps : List Nat)
    (hex : ∃ d ∈ deps, lookupAssoc m.tasks d = none ∨
      ∃ dt, lookupAssoc m.tasks d = some dt ∧ dt.status ≠ TaskStatus.completed) :
    ∃ d ∈ deps,
      (checkDeps m deps = Except.error (PyError.keyError d) ∧
        lookupAssoc m.tasks d = none) ∨
      (checkDeps m deps = Except.error (PyError.dependencyNotCompleted d) ∧
        ∃ dt, lookupAssoc m.tasks d = some dt ∧ dt.status ≠ TaskStatus.completed) := by
  induction deps with
  | nil =>
    obtain ⟨d, hd, -⟩ := hex
    cases hd
  | cons dep rest ih =>
    rcases hdl : lookupAssoc m.tasks dep with - | dt
    · refine ⟨dep, List.mem_cons_self _ _, Or.inl ⟨?_, hdl⟩⟩
      simp only [checkDeps, hdl]
    · by_cases hs : dt.status = TaskStatus.completed
      · obtain ⟨d, hdmem, hdprop⟩ := hex
        rcases List.mem_cons.mp hdmem with rfl | hdmem'
        · rcases hdprop with hnone | ⟨dt', hdt', hne⟩
          · rw [hdl] at hnone
            cases hnone
          · rw [hdl] at hdt'
            injection hdt' with he
            cases he
            exact absurd hs hne
        · obtain ⟨d', hd'mem, hd'res⟩ := ih ⟨d, hdmem', hdprop⟩
          refine ⟨d', List.mem_cons_of_mem _ hd'mem, ?_⟩
          have hstep : checkDeps m (dep :: rest) = checkDeps m rest := by
            simp only [checkDeps, hdl, hs]
            simp only [ne_eq, not_true_eq_false, if_false]
          rw [hstep]
          exact hd'res
      · refine ⟨dep, List.mem_cons_self _ _, Or.inr ⟨?_, dt, hdl, hs⟩⟩
        simp only [checkDeps, hdl]
        rw [if_pos hs]

/-- Claim C6 (corrected): standalone `execute_task` on a known task id: when
some dependency is not in state `Completed`, it fails before performing any
state mutation — the whole manager state, hence the task with its
`started_at`, `result` and `error`, is returned unchanged (a `Pending` task
remains `Pending`) — but the error depends on the offending dependency: the
`DependencyNotCompleted` `ValueError` when its id is a known task, a
`KeyError` when it is unknown (a reachable state, since `create_task` stores
dangling references — see the counterexample).  When every dependency is known
and `Completed`, it transitions the task through `Running` (`started_at`
stamped) to a terminal state, and any failure is both recorded in the task's
`error` field (with the task `Failed`) and re-raised to the caller. -/
theorem executeTask_standalone_contract (m : TaskManager) (task_id : Nat) (t : Task)
    (ht : lookupAssoc m.tasks task_id = some t) :
    ((∃ d ∈ t.dependencies, lookupAssoc m.tasks d = none ∨
        ∃ dt, lookupAssoc m.tasks d = some dt ∧ dt.status ≠ TaskStatus.completed) →
      (execute_task m task_id).2 = m ∧
      ∃ d ∈ t.dependencies,
        ((execute_task m task_id).1 = Except.error (PyError.keyError d) ∧
          lookupAssoc m.tasks d = none) ∨
        ((execute_task m task_id).1 = Except.error (PyError.dependencyNotCompleted d) ∧
          ∃ dt, lookupAssoc m.tasks d = some dt ∧ dt.status ≠ TaskStatus.completed)) ∧
    ((∀ d ∈ t.dependencies, ∃ dt, lookupAssoc m.tasks d = some dt ∧
        dt.status = TaskStatus.completed) →
      ∃ t', lookupAssoc (execute_task m task_id).2.tasks task_id = some t' ∧
        t'.started_at = some m.clock ∧
        (t'.status = TaskStatus.completed ∨ t'.status = TaskStatus.failed) ∧
        ∀ e, (execute_task m task_id).1 = Except.error e →
          t'.status = TaskStatus.failed ∧ t'.error = some (errStr e)) := by
  constructor
  · intro hex
    obtain ⟨d, hdmem, hres⟩ := checkDeps_error_of_offender m t.dependencies hex
    rcases hres with ⟨hcd, hnone⟩ | ⟨hcd, hdt⟩
    · simp only [execute_task, lookupTask, ht, hcd]
      exact ⟨by trivial, d, hdmem, Or.inl ⟨by rfl, hnone⟩⟩
    · simp only [execute_task, lookupTask, ht, hcd]
      exact ⟨by trivial, d, hdmem, Or.inr ⟨by rfl, hdt⟩⟩
  · intro hall
    have hcd : checkDeps m t.dependencies = Except.ok () :=
      checkDeps_ok_of_completed m t.dependencies hall
    simp only [execute_task, lookupTask, ht, hcd]
    split
    next hh =>
      refine ⟨_, lookupAssoc_setEntry_self _ _ _ _
        (lookupAssoc_setEntry_self _ _ _ _ ht), rfl, Or.inr rfl, ?_⟩
      intro e he
      injection he with he'
      rw [← he']
      exact ⟨rfl, rfl⟩
    next handler hh =>
      split
      next res hr =>
        refine ⟨_, lookupAssoc_setEntry_self _ _ _ _
          (lookupAssoc_setEntry_self _ _ _ _ ht), rfl, Or.inl rfl, ?_⟩
        intro e he
        cases he
      next msg hr =>
        refine ⟨_, lookupAssoc_setEntry_self _ _ _ _
          (lookupAssoc_setEntry_self _ _ _ _ ht), rfl, Or.inr rfl, ?_⟩
        intro e he
        injection he with he'
        rw [← he']
        exact ⟨rfl, rfl⟩

/-- Counterexample for C6: `c6cexM` is reachable through the public API
(`create_task` stores the dangling reference, see C4) and its task `0` has the
unknown dependency id `7` — a dependency that is not in state `Completed`, so
the claim promises a `DependencyNotCompleted` failure; standalone
`execute_task` instead fails with `KeyError 7`.  (The state is still returned
unchanged: the raise happens before any mutation.) -/
theorem dangling_dependency_keyError :
    execute_task c6cexM 0 = (Except.error (PyError.keyError 7), c6cexM) := rfl

/-- Witness for C6 (amended) at a concrete registry: task `0` depends on the
known but still `Pending` task `1`. -/
theorem executeTask_standalone_contract_witness :
    ((∃ d ∈ ([1] : List Nat), lookupAssoc c6wM.tasks d = none ∨
        ∃ dt, lookupAssoc c6wM.tasks d = some dt ∧ dt.status ≠ TaskStatus.completed) →
      (execute_task c6wM 0).2 = c6wM ∧
      ∃ d ∈ ([1] : List Nat),
        ((execute_task c6wM 0).1 = Except.error (PyError.keyError d) ∧
          lookupAssoc c6wM.tasks d = none) ∨
        ((execute_task c6wM 0).1 = Except.error (PyError.dependencyNotCompleted d) ∧
          ∃ dt, lookupAssoc c6wM.tasks d = some dt ∧ dt.status ≠ TaskStatus.completed)) ∧
    ((∀ d ∈ ([1] : List Nat), ∃ dt, lookupAssoc c6wM.tasks d = some dt ∧
        dt.status = TaskStatus.completed) →
      ∃ t', lookupAssoc (execute_task c6wM 0).2.tasks 0 = some t' ∧
        t'.started_at = some c6wM.clock ∧
        (t'.status = TaskStatus.completed ∨ t'.status = TaskStatus.failed) ∧
        ∀ e, (execute_task c6wM 0).1 = Except.error e →
          t'.status = TaskStatus.failed ∧ t'.error = some (errStr e)) :=
  executeTask_standalone_contract c6wM 0
    { id := 0, type := .planning, description := "t", dependencies := [1],
      status := .pending, created_at := 0 } rfl

theorem depsAllCompleted_eq_all (m : TaskManager) (deps : List Nat)
    (h : ∀ d ∈ deps, (lookupAssoc m.tasks d).isSome) :
    depsAllCompleted m deps = Except.ok (deps.all (depCompletedB m)) := by
  induction deps with
  | nil => rfl
  | cons dep rest ih =>
    have hsw := h dep (List.mem_cons_self _ _)
    rcases hdl : lookupAssoc m.tasks dep with - | dt
    · rw [hdl] at hsw
      cases hsw
    · simp only [depsAllCompleted, hdl]
      by_cases hs : dt.status = TaskStatus.completed
      · rw [if_pos hs, ih (fun d hd => h d (List.mem_cons_of_mem _ hd))]
        simp [List.all_cons, depCompletedB, hdl, hs]
      · rw [if_neg hs]
        simp [List.all_cons, depCompletedB, hdl, hs]

theorem executableAux_eq_filter (m : TaskManager) (l : List (Nat × Task))
    (h : ∀ p ∈ l, ∀ d ∈ p.2.dependencies, (lookupAssoc m.tasks d).isSome) :
    executableAux m l =
      Except.ok ((l.filter (fun p => p.2.status == TaskStatus.pending &&
        p.2.dependencies.all (depCompletedB m))).map Prod.fst) := by
  induction l with
  | nil => rfl
  | cons p rest ih =>
    obtain ⟨k, v⟩ := p
    have hv := h (k, v) (List.mem_cons_self _ _)
    have hrest := ih (fun q hq => h q (List.mem_cons_of_mem _ hq))
    simp only [executableAux]
    by_cases hp : v.status = TaskStatus.pending
    · rw [if_pos hp, depsAllCompleted_eq_all m _ hv]
      by_cases hall : v.dependencies.all (depCompletedB m) = true
      · simp only [hall, hrest, List.filter_cons, hp, hall]
        simp [hp, hall]
      · simp only [Bool.not_eq_true] at hall
        simp only [hall, hrest, List.filter_cons]
        simp [hp, hall]
    · rw [if_neg hp]
      rw [hrest]
      have hb : (v.status == TaskStatus.pending) = false := by
        simp [hp]
      simp [List.filter_cons, hb]

/-- Counterexample for C2: on a registry snapshot containing a dangling
dependency reference — constructible, since `create_task` validates nothing —
the run loop's ready-set scan does not return the set the spec defines (here
`[]`: a task with an unknown dependency is not ready); it raises `KeyError`
instead. -/
theorem readySet_scan_crashes_on_missing_dependency :
    executable c2cexM = Except.error (PyError.keyError 5) ∧
    readySetSpec c2cexM = [] ∧
    executable c2cexM ≠ Except.ok (readySetSpec c2cexM) :=
  ⟨rfl, rfl, fun h => Except.noConfusion h⟩

/-- Claim C2 (corrected): on every registry snapshot in which every referenced
dependency id is a known task — which the ready-set scan needs, since a
dangling reference makes it raise `KeyError` instead of returning a set — the
scan returns exactly the tasks whose state is `Pending` and all of whose
dependencies are `Completed`, in particular every `Pending` task with an empty
dependency list. -/
theorem readySet_correct_of_known_deps (m : TaskManager)
    (hwf : ∀ p ∈ m.tasks, ∀ d ∈ p.2.dependencies, (lookupAssoc m.tasks d).isSome) :
    executable m = Except.ok (readySetSpec m) ∧
    ∀ p ∈ m.tasks, p.2.status = TaskStatus.pending → p.2.dependencies = [] →
      p.1 ∈ readySetSpec m := by
  constructor
  · exact executableAux_eq_filter m m.tasks hwf
  · intro p hp hpend hdeps
    apply List.mem_map.mpr
    refine ⟨p, List.mem_filter.mpr ⟨hp, ?_⟩, rfl⟩
    simp [hpend, hdeps]

/-- Witness for C2 (amended) at a concrete well-formed registry. -/
theorem readySet_correct_of_known_deps_witness :
    executable c2wM = Except.ok (readySetSpec c2wM) ∧
    ∀ p ∈ c2wM.tasks, p.2.status = TaskStatus.pending → p.2.dependencies = [] →
      p.1 ∈ readySetSpec c2wM :=
  readySet_correct_of_known_deps c2wM (by decide)

/-- Counterexample for C1: one handler failure aborts the whole run.  The loop
exits by propagating the task's error (`handlerError "boom"`) to the caller of
`execute_all`, with task `2` — ready, since its dependency `1` completed —
left `Pending`: the future batch never executes, and the loop did not
terminate with an empty ready set (`executable` of the final registry is
`[2]`, not `[]`). -/
theorem handler_failure_aborts_run :
    (execute_all 5 c1cexM).map (fun r => (r.1, r.2.tasks.map (fun p => (p.1, p.2.status)))) =
      some (Except.error (PyError.handlerError "boom"),
        [(0, TaskStatus.failed), (1, TaskStatus.completed), (2, TaskStatus.pending)]) ∧
    (execute_all 5 c1cexM).map (fun r => executable r.2) =
      some (Except.ok [2]) := ⟨rfl, rfl⟩

/-- Claim C1 (corrected): a handler failure does not abort its own batch in the
model of `asyncio.gather` — all sibling `execute_task` coroutines of the batch
still run to completion, `runBatch`'s final state — but it does abort the run
loop: `execute_all` returns the first raised error together with the
post-batch state, so no future batch executes and the caller receives the
task's error; only when no task raises does the loop run on, terminating
exactly when the ready set is empty. -/
theorem batch_error_propagates (fuel : Nat) (m : TaskManager) :
    (∀ ids e m1, executable m = Except.ok ids → ids ≠ [] →
        runBatch m ids = (Except.error e, m1) →
        execute_all (fuel + 1) m = some (Except.error e, m1)) ∧
    (executable m = Except.ok [] →
        execute_all (fuel + 1) m = some (Except.ok (), m)) := by
  constructor
  · intro ids e m1 hx hne hrb
    cases ids with
    | nil => exact absurd rfl hne
    | cons id rest =>
      rw [execute_all_succ]
      simp only [hx, hrb]
  · intro hx
    rw [execute_all_succ]
    simp only [hx]

/-- Witness for C1 (amended) at the concrete three-task registry. -/
theorem batch_error_propagates_witness :
    executable c1cexM = Except.ok [0, 1] ∧
    runBatch c1cexM [0, 1] = (Except.error (PyError.handlerError "boom"), c1batchM) ∧
    execute_all 3 c1cexM = some (Except.error (PyError.handlerError "boom"), c1batchM) :=
  ⟨rfl, rfl, (batch_error_propagates 2 c1cexM).1 [0, 1]
    (PyError.handlerError "boom") c1batchM rfl (by simp) rfl⟩

/-- Counterexample for C3: `execute_task` has no guard on the current state,
so a task that reached the terminal state `Completed` is re-run by a later
standalone `execute_task` call and ends up `Failed` — an operation changed the
state of a task after it reached a terminal state. -/
theorem completed_task_rerun_to_failed :
    (lookupAssoc c3s3.tasks 0).map Task.status = some TaskStatus.completed ∧
    (lookupAssoc c3s5.tasks 0).map Task.status = some TaskStatus.failed := ⟨rfl, rfl⟩

/-- Claim C3 (corrected): within the batch loop the state machine does hold —
`execute_all` only ever dispatches `Pending` tasks, so a task already
`Completed` or `Failed` at the start of a run keeps its exact record through
the whole run, and a task that is `Pending` when the run ends still carries
its original record: no operation ever returns a task to `Pending` once
dispatched.  The guarantee stops at the loop: a standalone `execute_task` call
performs no state guard and can re-run a terminal task (see the
counterexample). -/
theorem runAll_preserves_state_machine (fuel : Nat) (m : TaskManager)
    (res : Except PyError Unit × TaskManager) (hnd : keysNodup m)
    (h : execute_all fuel m = some res) :
    (∀ id t, lookupAssoc m.tasks id = some t →
        (t.status = TaskStatus.completed ∨ t.status = TaskStatus.failed) →
        lookupAssoc res.2.tasks id = some t) ∧
    (∀ id t', lookupAssoc res.2.tasks id = some t' →
        t'.status = TaskStatus.pending → lookupAssoc m.tasks id = some t') :=
  ⟨fun id t hl ht => execute_all_terminal_stable fuel m res id t hnd h hl ht,
   fun id t' hl hp => execute_all_pending_origin fuel m res id t' h hl hp⟩

/-- Witness for C3 (amended): running the loop on `c3wM` (quiescent, its task
terminal) leaves the completed task's record in place. -/
theorem runAll_preserves_state_machine_witness :
    lookupAssoc ((Except.ok (), c3wM) :
        Except PyError Unit × TaskManager).2.tasks 0 =
      some { id := 0, type := TaskType.planning, description := "t", dependencies := [],
             status := TaskStatus.completed, created_at := 0, started_at := some 1,
             completed_at := some 2, result := some "r", error := none } :=
  (runAll_preserves_state_machine 1 c3wM (Except.ok (), c3wM) (by decide) rfl).1 0
    { id := 0, type := TaskType.planning, description := "t", dependencies := [],
      status := TaskStatus.completed, created_at := 0, started_at := some 1,
      completed_at := some 2, result := some "r", error := none }
    rfl (Or.inl rfl)

end TaskSched

